import Mathlib

/-!
Verification of the risk-sizing and stop-adjustment engine of the
MrCashondo trading bot (`src/risk_manager.py`, `src/signal_generator.py`,
`src/indicators/ema.py`).

Python floats are modelled as exact rationals (`ℚ`); Python's `round`
builtin (banker's rounding, ties to even) is modelled by `pyRound`;
`dict.get(key, default)` lookups on the symbol-info dictionaries are
modelled by a structure of `Option` fields read through `Option.getD`;
functions that can raise are modelled with `Except`.
-/

namespace MrCashondo

/-- Round a rational to the nearest integer, ties to even — the semantics
of Python's builtin `round(x)` (on exact values). -/
def roundHalfEven (q : ℚ) : ℤ :=
  let f : ℤ := ⌊q⌋
  let r : ℚ := q - f
  if r < 1/2 then f
  else if 1/2 < r then f + 1
  else if f % 2 = 0 then f else f + 1

/-- Python's `round(x, digits)` for nonnegative `digits`. -/
def pyRound (q : ℚ) (digits : ℕ) : ℚ :=
  (roundHalfEven (q * (10 : ℚ) ^ digits)) / (10 : ℚ) ^ digits

/-- Test whether `t` occurs as a contiguous substring of `s` — the Python `t in s`
test on strings (computed over the underlying character lists). -/
def containsToken (s t : String) : Bool :=
  (List.range (s.data.length + 1)).any (fun i => t.data.isPrefixOf (s.data.drop i))

/-- Any of the given tokens occurs in `s` — Python
`any(x in s for x in tokens)`. -/
def containsAny (s : String) (tokens : List String) : Bool :=
  tokens.any (fun t => containsToken s t)

/-- The MT5 symbol-info dictionary, as consumed by `RiskManager`.  Every
numeric field the code reads through `symbol_info.get(key, default)` is
an `Option`; `none` models an absent key. -/
structure SymbolInfo where
  symbol : String := ""
  point : Option ℚ := none
  stops_level : Option ℚ := none
  digits : Option ℕ := none
  sl_multiplier : Option ℚ := none
  tp_multiplier : Option ℚ := none
  adx : Option ℚ := none
  contract_size : Option ℚ := none
  tick_value : Option ℚ := none
  volume_min : Option ℚ := none
  min_volume : Option ℚ := none
  volume_max : Option ℚ := none
  max_volume : Option ℚ := none
  volume_step : Option ℚ := none
deriving Repr

/-- Trade direction.  The Python code tests `signal_type == "BUY"` and
treats every other string as SELL, so the two-constructor type is
faithful. -/
inductive Direction where
  | buy
  | sell
deriving DecidableEq, Repr

/-! ## Stop adjuster — `RiskManager.adjust_stops`, risk_manager.py lines 541-679 -/

/-- Result of the stop-adjustment pipeline before the final decimal
rounding.  `tpFallback` records whether the final `take_profit <= 0`
fallback (line 668) fired. -/
structure AdjustResult where
  sl : ℚ
  tp : ℚ
  tpFallback : Bool
deriving Repr

/-- Lines 559-583: entry-price fallback, point fallback and the robust
minimum stop distance `min_sl_distance` (base distance × safety
multiplier 3, raised to `0.8*atr` when an ATR is supplied). -/
def minSlDistance (info : SymbolInfo) (atr : Option ℚ) : ℚ :=
  let point0 := info.point.getD 0.0001
  let point := if point0 ≤ 0 then (if containsToken info.symbol "JPY" then 0.01 else 0.0001) else point0
  let stopsLevel := info.stops_level.getD 0
  let base := max (if stopsLevel > 0 then stopsLevel * point else 10 * point) (5 * point)
  let d := base * 3
  match atr with
  | some a => if a > 0 then max d (a * 8/10) else d
  | none => d

/-- Lines 585-606: dynamic SL/TP from ATR (overwrites the proposed stops
whenever a positive ATR is supplied), with the ADX-driven adjustment of
the TP multiplier. -/
def atrProposal (dir : Direction) (entry sl tp : ℚ) (info : SymbolInfo)
    (atr : Option ℚ) (minD : ℚ) : ℚ × ℚ :=
  match atr with
  | some a =>
    if a > 0 then
      let slMult := max 1.2 (info.sl_multiplier.getD 1.5)
      let tpMult0 := max 2.0 (info.tp_multiplier.getD 2.5)
      let tpMult :=
        match info.adx with
        | some x => if x > 25 then 2.5 else if x < 15 then 1.5 else tpMult0
        | none => tpMult0
      match dir with
      | .buy => (entry - max (slMult * a) minD, entry + max (tpMult * a) minD)
      | .sell => (entry + max (slMult * a) minD, entry - max (tpMult * a) minD)
    else (sl, tp)
  | none => (sl, tp)

/-- Lines 608-649: direction-wise validation and minimum-distance repair
of the stop loss. -/
def validateSl (dir : Direction) (entry sl minD : ℚ) : ℚ :=
  match dir with
  | .buy =>
    let s := if sl ≥ entry ∨ sl ≤ 0 then entry - minD else sl
    if entry - s < minD then entry - minD else s
  | .sell =>
    let s := if sl ≤ entry ∨ sl ≤ 0 then entry + minD else sl
    if s - entry < minD then entry + minD else s

/-- Lines 608-649: direction-wise validation and minimum-distance repair
of the take profit. -/
def validateTp (dir : Direction) (entry tp minD : ℚ) : ℚ :=
  match dir with
  | .buy =>
    let t := if tp ≤ entry ∨ tp ≤ 0 then entry + minD else tp
    if t - entry < minD then entry + minD else t
  | .sell =>
    let t := if tp ≥ entry ∨ tp ≤ 0 then entry - minD else tp
    if entry - t < minD then entry - minD else t

/-- Lines 608-670 of `adjust_stops`: validation/minimum-distance repair
of both stops, the risk/reward floor (1:1.3, widened to 1:1.5 on
repair), and the non-positive fallbacks. -/
def repairStops (dir : Direction) (entry sl1 tp1 minD : ℚ) : AdjustResult :=
  -- lines 608-649
  let sl2 := validateSl dir entry sl1 minD
  let tp2 := validateTp dir entry tp1 minD
  -- lines 651-661
  let slD := |entry - sl2|
  let tpD := |tp2 - entry|
  let tp3 :=
    if tpD < slD * 1.3 then
      match dir with
      | .buy => entry + slD * 1.5
      | .sell => entry - slD * 1.5
    else tp2
  -- lines 663-670
  let sl3 := if sl2 ≤ 0 then (match dir with | .buy => entry * 0.95 | .sell => entry * 1.05) else sl2
  let tp4 := if tp3 ≤ 0 then (match dir with | .buy => entry * 1.05 | .sell => entry * 0.95) else tp3
  ⟨sl3, tp4, decide (tp3 ≤ 0)⟩

/-- Method `RiskManager.adjust_stops` up to (but excluding) the final
`round(_, digits)` calls of lines 672-674.  Translated line by line from
risk_manager.py lines 541-670. -/
def adjustStopsCore (dir : Direction) (entry0 sl0 tp0 : ℚ) (info : SymbolInfo)
    (atr : Option ℚ) : AdjustResult :=
  -- line 559-561: entry-price validation fallback
  let entry := if entry0 ≤ 0 then 1 else entry0
  let minD := minSlDistance info atr
  -- lines 589-606
  let p := atrProposal dir entry sl0 tp0 info atr minD
  -- lines 608-670
  repairStops dir entry p.1 p.2 minD

/-- Method `RiskManager.adjust_stops`, risk_manager.py lines 541-679: full
pipeline including the final rounding to the symbol's digits (the
constant `True` third component of the Python return value is dropped). -/
def adjustStops (dir : Direction) (entry sl tp : ℚ) (info : SymbolInfo)
    (atr : Option ℚ) : ℚ × ℚ :=
  let digits := info.digits.getD 5
  let r := adjustStopsCore dir entry sl tp info atr
  (pyRound r.sl digits, pyRound r.tp digits)

/-! ## Position sizer — `RiskManager.calculate_position_size_fixed_usd`,
risk_manager.py lines 457-540 -/

/-- The `PositionSize` dataclass of risk_manager.py lines 40-47. -/
structure PositionSize where
  volume : ℚ
  risk_amount : ℚ
  risk_percentage : ℚ
  pip_value : ℚ
  stop_loss_pips : ℚ
deriving Repr, DecidableEq

/-- Line 510 with lines 513-515: the minimum volume read from the
symbol info, coerced to `0.01` when non-positive. -/
def coercedMinVol (info : SymbolInfo) : ℚ :=
  let m := info.volume_min.getD (info.min_volume.getD 0.01)
  if m ≤ 0 then 0.01 else m

/-- Line 511: the maximum volume read from the symbol info. -/
def readMaxVol (info : SymbolInfo) : ℚ :=
  info.volume_max.getD (info.max_volume.getD 100)

/-- Line 512: the volume step read from the symbol info. -/
def readStepVol (info : SymbolInfo) : ℚ :=
  info.volume_step.getD 0.01

/-- Line 517: `max(min_vol, min(max_vol, round(volume / step_vol) * step_vol))`. -/
def clampToStep (minVol maxVol stepVol rawVol : ℚ) : ℚ :=
  max minVol (min maxVol ((roundHalfEven (rawVol / stepVol) : ℚ) * stepVol))

/-- Method `RiskManager.calculate_position_size_fixed_usd`.  The only statement
of the `try` block that can raise on numeric inputs is
`round(volume / step_vol)` when `volume_step` is zero
(`ZeroDivisionError`); the `except` handler of lines 531-540 then
returns the raw minimum volume.  Every other branch is translated
directly. -/
def calculatePositionSizeFixedUsd (symbol : String) (entry stopLoss : ℚ)
    (info : SymbolInfo) (fixedRiskUsd : ℚ) : PositionSize :=
  let stepVol := readStepVol info
  if stepVol = 0 then
    -- lines 531-540: except handler (ZeroDivisionError at line 517)
    ⟨info.volume_min.getD 0.01, fixedRiskUsd, 0, 10, 10⟩
  else
    -- lines 472-478: emergency distance when SL equals entry
    let slDistance0 := |entry - stopLoss|
    let slDistance :=
      if slDistance0 = 0 then
        let point := info.point.getD 0.0001
        max (10 * point) 0.001
      else slDistance0
    let contractSize := info.contract_size.getD 100000
    -- lines 480-486: pip size by symbol category
    let pipSize : ℚ :=
      if containsToken symbol "JPY" then 0.01
      else if containsAny symbol ["XAU", "XAG", "GOLD", "SILVER"] then 0.1
      else 0.0001
    -- line 487-489 (dead guard: slDistance is already positive)
    let slDistance := if slDistance ≤ 0 then pipSize * 10 else slDistance
    let slPips0 := slDistance / pipSize
    let pipValuePerLot := pipSize * contractSize
    let tickValue := info.tick_value.getD 0
    let pipValue0 := if tickValue > 0 then tickValue else pipValuePerLot
    -- lines 497-504: category fallback for a non-positive pip value
    let pipValue :=
      if pipValue0 ≤ 0 then
        if containsToken symbol "JPY" then 1000
        else if containsAny symbol ["XAU", "XAG"] then 100
        else 10
      else pipValue0
    let slPips := if slPips0 ≤ 0 then 10 else slPips0
    -- line 509: volume for a fixed USD risk
    let volume0 := fixedRiskUsd / (slPips * pipValue)
    let minVol := coercedMinVol info
    let maxVol := readMaxVol info
    -- line 517: clamp to [min, max] and round to the volume step
    let volume1 := clampToStep minVol maxVol stepVol volume0
    -- lines 518-523 (dead guards after the clamp)
    let volume2 := if volume1 < minVol then minVol else volume1
    let volume3 := if volume2 ≤ 0 then minVol else volume2
    ⟨volume3, fixedRiskUsd, 0, pipValue, slPips⟩

/-- Predicate: `v` is an integer multiple of the step `s`. -/
def isStepMultiple (v s : ℚ) : Prop := ∃ k : ℤ, v = k * s

/-! ## Percent-of-margin risk amount — `RiskManager.calculate_position_size`,
risk_manager.py lines 849-906 (live branch of the percent-margin mode) -/

/-- Lines 886-892: the risk amount of the percent-of-margin mode.
`freeMargin = none` models `free_margin=None`.  The code substitutes the
account balance only when the free margin is missing or non-positive and
then applies the 1% hard cap to the configured per-trade risk. -/
def percentMarginRiskAmount (maxRiskPerTrade : ℚ) (freeMargin : Option ℚ)
    (accountBalance : ℚ) : ℚ :=
  let fm :=
    match freeMargin with
    | none => accountBalance
    | some x => if x ≤ 0 then accountBalance else x
  let maxRiskPct := min maxRiskPerTrade 0.01
  fm * maxRiskPct

/-! ## Exposure guard — risk_manager.py lines 1661-1678 and 1870-1904 -/

/-- Decision reasons reported by the exposure guard (the Python code
returns formatted strings; only their identity matters here). -/
inductive ExposureReason where
  | exceeded
  | nearLimitAllowed
  | valid
deriving DecidableEq, Repr

/-- Method `RiskManager.validate_exposure_and_margin`, lines 1661-1678 (the
later, effective definition of the duplicated method): rejects only
above 110% of the limit, accepts with a warning between 100% and 110%. -/
def validateExposureAndMargin (proposedExposure freeMargin maxExposure : ℚ) :
    Bool × ExposureReason :=
  if proposedExposure > maxExposure * 1.1 then (false, .exceeded)
  else if proposedExposure > maxExposure then (true, .nearLimitAllowed)
  else (true, .valid)

/-- Method `RiskManager.calculate_dynamic_exposure_limit` (instance method,
lines 703-721), as invoked by `check_exposure_limit` with the account
balance passed for `free_margin`. -/
def dynamicExposureLimitInstance (freeMargin : ℚ) (symbol : String) : ℚ :=
  let fm := if freeMargin ≤ 0 then 0 else freeMargin
  let pct : ℚ :=
    if containsAny symbol ["XAU", "XAG", "GOLD", "SILVER", "PLATINUM", "PALLADIUM"] then 0.25
    else if containsAny symbol ["EUR", "USD", "GBP", "JPY", "AUD", "CAD", "CHF", "NZD"] then 0.40
    else 0.20
  fm * pct

/-- Method `RiskManager.check_exposure_limit`, lines 1870-1904: when the
proposed volume breaches the limit the guard retries once with the
symbol minimum volume and rejects only if even that breaches.
`currentExposure` and `balance` model `mt5_connector.get_total_exposure()`
and the account balance. -/
def checkExposureLimit (symbol : String) (volume price : ℚ) (info : SymbolInfo)
    (currentExposure balance : ℚ) : Bool :=
  let contractSize := info.contract_size.getD 100000
  let minVolume := info.min_volume.getD 0.01
  let newExposure := volume * contractSize * price
  let maxExposure := dynamicExposureLimitInstance balance symbol
  if currentExposure + newExposure > maxExposure then
    let minExposure := minVolume * contractSize * price
    if currentExposure + minExposure > maxExposure then false
    else true
  else true

/-! ## Indicator library — `src/indicators/ema.py` and the
`TechnicalIndicators` class of `src/signal_generator.py` -/

/-- The EMA recurrence `ema[i] = p[i]*k + ema[i-1]*(1-k)` of ema.py
line 23, unfolded along the tail of the price list. -/
def emaFrom (k prev : ℚ) : List ℚ → List ℚ
  | [] => []
  | p :: ps =>
    let v := p * k + prev * (1 - k)
    v :: emaFrom k v ps

/-- Function `calculate_ema` of src/indicators/ema.py lines 6-25.  Raises
`ValueError` (`Except.error`) when the series is shorter than the
period; otherwise the first `period-1` entries are NaN (`none`), entry
`period-1` is the simple average of the first `period` prices, and the
rest follow the EMA recurrence.  (For `period = 0` numpy would produce a
NaN seed from an empty mean; the theorems below only quantify over
`1 ≤ period`.) -/
def calculateEma (prices : List ℚ) (period : ℕ) : Except Unit (List (Option ℚ)) :=
  if prices.length < period then .error ()
  else
    let k : ℚ := 2 / (period + 1)
    let seed : ℚ := (prices.take period).sum / period
    .ok (List.replicate (period - 1) none ++
      some seed :: (emaFrom k seed (prices.drop period)).map some)

/-- Model of `pd.Series(xs).rolling(window=period).mean()`: NaN (`none`) until a
full window is available, then the mean of the trailing `period`
values. -/
def rollingMean (xs : List ℚ) (period : ℕ) : List (Option ℚ) :=
  (List.range xs.length).map (fun i =>
    if i + 1 < period then none
    else some (((xs.drop (i + 1 - period)).take period).sum / period))

namespace TechnicalIndicators

/-- Method `TechnicalIndicators.atr`, signal_generator.py lines 579-585.  Note
two faithful quirks of the source: the third positional argument of
`np.maximum` is its `out` buffer, so the true range is the maximum of
only `high-low` and `|high - prev_close|`; and the front padding
concatenates `period` NaNs onto the `n-1`-long rolling mean, so the
result has `period + (n-1)` entries, not `n`. -/
def atr (high low close : List ℚ) (period : ℕ) : List (Option ℚ) :=
  let tr := List.zipWith max
    (List.zipWith (· - ·) (high.drop 1) (low.drop 1))
    (List.zipWith (fun h c => |h - c|) (high.drop 1) (close.dropLast))
  List.replicate period none ++ rollingMean tr period

/-- Method `TechnicalIndicators.adx`, signal_generator.py lines 587-590:
`np.full_like(close, 25.0)` — a constant placeholder, independent of the
inputs. -/
def adx (high low close : List ℚ) (period : ℕ) : List ℚ :=
  List.replicate close.length 25

/-- Method `TechnicalIndicators.find_fractals`, signal_generator.py lines
538-557: indices `i ∈ [window, n-window)` that are strict local maxima
(resp. minima) over `window` candles on each side. -/
def findFractals (data : List ℚ) (window : ℕ := 2) : List ℕ × List ℕ :=
  let n := data.length
  let idx := (List.range n).filter (fun i => window ≤ i ∧ i + window < n)
  let isHigh := fun i => (List.range window).all (fun j =>
    decide (data.getD (i - (j+1)) 0 < data.getD i 0) &&
    decide (data.getD (i + (j+1)) 0 < data.getD i 0))
  let isLow := fun i => (List.range window).all (fun j =>
    decide (data.getD i 0 < data.getD (i - (j+1)) 0) &&
    decide (data.getD i 0 < data.getD (i + (j+1)) 0))
  (idx.filter isHigh, idx.filter isLow)

/-- Method `TechnicalIndicators.find_nearest_level`, signal_generator.py lines
559-566: `min(levels, key=|· - price|)` (first minimiser, as Python's
`min`), or `price` itself for an empty list. -/
def findNearestLevel (price : ℚ) (levels : List ℚ) : ℚ :=
  match levels with
  | [] => price
  | l :: ls => ls.foldl (fun best x => if |x - price| < |best - price| then x else best) l

end TechnicalIndicators

/-- Wilder's +DM for one step (spec-modelled helper, see `adxSpec`). -/
def dmPlusStep (hPrev h lPrev l : ℚ) : ℚ :=
  if h - hPrev > lPrev - l ∧ h - hPrev > 0 then h - hPrev else 0

/-- Wilder's −DM for one step (spec-modelled helper, see `adxSpec`). -/
def dmMinusStep (hPrev h lPrev l : ℚ) : ℚ :=
  if lPrev - l > h - hPrev ∧ lPrev - l > 0 then lPrev - l else 0

/-- True range for one step (spec-modelled helper, see `adxSpec`). -/
def trueRangeStep (h l cPrev : ℚ) : ℚ :=
  max (h - l) (max |h - cPrev| |l - cPrev|)

/-- Wilder smoothing (RMA) of a series with period `p`:
`s[0] = x[0]`, `s[i] = (s[i-1]*(p-1) + x[i]) / p`. -/
def wilderSmooth (p : ℚ) : ℚ → List ℚ → ℚ
  | acc, [] => acc
  | acc, x :: xs => wilderSmooth p ((acc * (p - 1) + x) / p) xs

/-- Modelled from the spec: "ADX derives from smoothed +DM/−DM over
smoothed true range" (spec.md §4.1).  The repository contains no real
ADX implementation (the shipped `TechnicalIndicators.adx` is a constant
placeholder), so this reference definition follows the spec's words via
the standard Wilder construction: per-step ±DM and true range, Wilder
smoothing, directional indices `DI± = 100·sDM±/sTR`, and the final
`DX = 100·|DI+ − DI−| / (DI+ + DI−)` smoothed over the series.  It
returns the last ADX value of the series. -/
def adxSpecLast (high low close : List ℚ) (period : ℕ) : ℚ :=
  let steps := (List.range (close.length - 1)).map (fun i =>
    (dmPlusStep (high.getD i 0) (high.getD (i+1) 0) (low.getD i 0) (low.getD (i+1) 0),
     dmMinusStep (high.getD i 0) (high.getD (i+1) 0) (low.getD i 0) (low.getD (i+1) 0),
     trueRangeStep (high.getD (i+1) 0) (low.getD (i+1) 0) (close.getD i 0)))
  let p : ℚ := period
  let dxs := (List.range steps.length).map (fun j =>
    let pre := steps.take (j + 1)
    let sTR := wilderSmooth p 0 (pre.map (fun s => s.2.2))
    let sPlus := wilderSmooth p 0 (pre.map (fun s => s.1))
    let sMinus := wilderSmooth p 0 (pre.map (fun s => s.2.1))
    let diPlus := if sTR = 0 then 0 else 100 * sPlus / sTR
    let diMinus := if sTR = 0 then 0 else 100 * sMinus / sTR
    if diPlus + diMinus = 0 then 0 else 100 * |diPlus - diMinus| / (diPlus + diMinus))
  wilderSmooth p 0 dxs

/-! ## Structural trailing stop —
`RiskManager.calculate_trailing_stop_structural`, risk_manager.py lines
341-391 -/

/-- Maximum of a non-empty candidate list (Python's builtin `max`). -/
def maxQ (x : ℚ) (xs : List ℚ) : ℚ := xs.foldl max x

/-- Minimum of a non-empty candidate list (Python's builtin `min`). -/
def minQ (x : ℚ) (xs : List ℚ) : ℚ := xs.foldl min x

/-- The last element of the EMA series as read by
`ema[-1] if len(ema) > 0 else None` (risk_manager.py line 377); the last
entry is a defined number whenever the series length is at least the
(positive) period. -/
def lastEma (ema : List (Option ℚ)) : Option ℚ :=
  match ema.getLast? with
  | some (some x) => some x
  | _ => none

/-- The swing-low candidate levels for a BUY trail (risk_manager.py line
375): closes at fractal-low indices that lie below the current price. -/
def swingLowsBelow (closes : List ℚ) (current : ℚ) : List ℚ :=
  ((TechnicalIndicators.findFractals closes 2).2.filterMap
    (fun i => closes.get? i)).filter (fun x => x < current)

/-- The swing-high candidate levels for a SELL trail (risk_manager.py
line 386). -/
def swingHighsAbove (closes : List ℚ) (current : ℚ) : List ℚ :=
  ((TechnicalIndicators.findFractals closes 2).1.filterMap
    (fun i => closes.get? i)).filter (fun x => current < x)

/-- The candidate list of risk_manager.py line 379/389: nearest fractal
behind price (when one exists), last EMA value, and the minimum offset
`entry ± 0.1 * risk` — with `None` entries filtered out as in the
source. -/
def trailCandidates (fractal emaLast : Option ℚ) (offset : ℚ) : List ℚ :=
  ([fractal, emaLast, some offset]).filterMap id

/-- Python's builtin `max` over a list, with a default for the (here
unreachable) empty case. -/
def pyMax (l : List ℚ) (dflt : ℚ) : ℚ :=
  match l with
  | [] => dflt
  | x :: xs => maxQ x xs

/-- Python's builtin `min` over a list, with a default for the (here
unreachable) empty case. -/
def pyMin (l : List ℚ) (dflt : ℚ) : ℚ :=
  match l with
  | [] => dflt
  | x :: xs => minQ x xs

/-- The three trailing candidates of the BUY branch (lines 374-379),
given the already-computed EMA series. -/
def buyTrailCandidates (closes : List ℚ) (entry current stopLoss : ℚ)
    (ema : List (Option ℚ)) : List ℚ :=
  let lows := swingLowsBelow closes current
  let fractal : Option ℚ :=
    if lows ≠ [] then some (TechnicalIndicators.findNearestLevel current lows) else none
  trailCandidates fractal (lastEma ema) (entry + |entry - stopLoss| / 10)

/-- The three trailing candidates of the SELL branch (lines 386-389). -/
def sellTrailCandidates (closes : List ℚ) (entry current stopLoss : ℚ)
    (ema : List (Option ℚ)) : List ℚ :=
  let highs := swingHighsAbove closes current
  let fractal : Option ℚ :=
    if highs ≠ [] then some (TechnicalIndicators.findNearestLevel current highs) else none
  trailCandidates fractal (lastEma ema) (entry - |entry - stopLoss| / 10)

/-- Method `RiskManager.calculate_trailing_stop_structural`, lines 341-391.
The EMA call of line 368 raises `ValueError` for series shorter than the
period (propagated as `Except.error`); `Except.ok none` is the Python
`None` ("do not move the stop"). -/
def calculateTrailingStopStructural (closes : List ℚ) (entry current stopLoss : ℚ)
    (dir : Direction) (period : ℕ := 20) : Except Unit (Option ℚ) :=
  match calculateEma closes period with
  | .error e => .error e
  | .ok ema =>
    let risk := |entry - stopLoss|
    match dir with
    | .buy =>
      if current < entry + risk then .ok none
      else
        let cands := buyTrailCandidates closes entry current stopLoss ema
        let ts0 := pyMax cands (entry + risk / 10)
        -- line 381: never drop the stop below the entry
        let ts := max ts0 entry
        .ok (if ts > stopLoss then some ts else none)
    | .sell =>
      if current > entry - risk then .ok none
      else
        let cands := sellTrailCandidates closes entry current stopLoss ema
        let ts0 := pyMin cands (entry - risk / 10)
        let ts := min ts0 entry
        .ok (if ts < stopLoss then some ts else none)

/-! ## Position lifecycle manager —
`RiskManager.manage_partial_and_trailing`, risk_manager.py lines 216-288 -/

/-- Broker calls the lifecycle manager can issue through `broker_api`. -/
inductive BrokerAction where
  | partClose (positionId : ℤ) (volume : ℚ)   -- `close_partial`
  | setStop (positionId : ℤ) (newSl : ℚ)       -- `modify_stop_loss`
  | fullClose (positionId : ℤ)                 -- `close_position`
deriving DecidableEq, Repr

/-- Broker-side predicates the lifecycle manager queries
(`is_partial_closed`, `is_partial_close_allowed`, `is_position_open`).
`alreadySplit` models a recorded half-close. -/
structure BrokerView where
  alreadySplit : Bool
  splitAllowed : Bool
  stillOpen : Bool
deriving Repr

/-- Method `RiskManager.split_position_for_partial`, risk_manager.py lines
441-446: half and half. -/
def splitPositionVolumes (volume : ℚ) : ℚ × ℚ := (volume / 2, volume / 2)

/-- Method `RiskManager.manage_partial_and_trailing`, lines 216-288, as the
list of broker actions one call issues.  Block 1 (lines 251-264) issues
the half close at `tp1 = entry ± 1R` plus the break-even stop move;
block 2 (lines 266-281) issues a trailing stop move from `≥ 1.5R`
(modelled through the wrapper `calculate_trailing_stop` of lines
418-430; if the EMA inside raises, the exception aborts the remaining
blocks, so the already-issued actions stand); block 3 (lines 283-288)
closes the runner at the final SL/TP. -/
def managePartAndTrailing (positionId : ℤ) (entry stopLoss takeProfit current : ℚ)
    (dir : Direction) (volume : ℚ) (closes : List ℚ) (broker : BrokerView)
    (trailingPeriod : ℕ := 20) : List BrokerAction :=
  let r1 := |entry - stopLoss|
  let tp1 := match dir with | .buy => entry + r1 | .sell => entry - r1
  let hit1 : Bool := match dir with | .buy => current ≥ tp1 | .sell => current ≤ tp1
  let acts1 : List BrokerAction :=
    if !broker.alreadySplit && hit1 && broker.splitAllowed then
      [.partClose positionId (splitPositionVolumes volume).1, .setStop positionId entry]
    else []
  let r15 := 1.5 * |entry - stopLoss|
  let tpTrail := match dir with | .buy => entry + r15 | .sell => entry - r15
  let hit15 : Bool := match dir with | .buy => current ≥ tpTrail | .sell => current ≤ tpTrail
  let hitEnd : Bool := match dir with
    | .buy => current ≤ stopLoss ∨ current ≥ takeProfit
    | .sell => current ≥ stopLoss ∨ current ≤ takeProfit
  let acts3 : List BrokerAction :=
    if hitEnd && broker.stillOpen then [.fullClose positionId] else []
  if hit15 then
    match calculateTrailingStopStructural closes entry current stopLoss dir trailingPeriod with
    | .error _ => acts1  -- ValueError propagates: blocks 2-3 never run
    | .ok none => acts1 ++ acts3
    | .ok (some ts) => acts1 ++ [.setStop positionId ts] ++ acts3
  else acts1 ++ acts3

/-! ## Cooldown after consecutive losses — risk_manager.py lines 117-149
and the duplicated `__init__` of lines 836-847 -/

/-- The cooldown-related attributes of a `RiskManager` instance.  Each is
an `Option` because the class body defines `__init__` twice: the first
(lines 117-130) initializes them, the second (lines 836-847) — which is
the one Python actually uses, since later definitions in a class body
shadow earlier ones — does not, leaving the attributes absent
(`none`). -/
structure CooldownState where
  consecutive_losses : Option ℕ
  cooldown : Option Bool
  cooldown_loss_limit : Option ℕ
deriving DecidableEq, Repr

/-- The shadowed `__init__` of lines 117-130: cooldown registry
initialized (0 losses, no cooldown, limit 2). -/
def initCooldownIntended : CooldownState := ⟨some 0, some false, some 2⟩

/-- The effective `__init__` of lines 836-847: it sets only
`risk_params`, `daily_pnl`, `daily_trades`, `positions_count` and
`symbol_leverage`, so the cooldown attributes are never created. -/
def initCooldownEffective : CooldownState := ⟨none, none, none⟩

/-- Method `RiskManager.register_trade_result`, lines 131-143.  Reading an
absent attribute is Python's `AttributeError`, modelled as
`Except.error`. -/
def registerTradeResult (s : CooldownState) (result : String) :
    Except Unit CooldownState :=
  if result = "LOSS" then
    match s.consecutive_losses, s.cooldown_loss_limit with
    | some n, some lim =>
      .ok { s with
        consecutive_losses := some (n + 1),
        cooldown := if n + 1 ≥ lim then some true else s.cooldown }
    | _, _ => .error ()
  else if result = "WIN" ∨ result = "BE" then
    .ok { s with consecutive_losses := some 0, cooldown := some false }
  else .ok s

/-- Method `RiskManager.can_trade`, lines 145-149: `not self.cooldown`. -/
def canTrade (s : CooldownState) : Except Unit Bool :=
  match s.cooldown with
  | some b => .ok (!b)
  | none => .error ()

instance {ε α : Type} [DecidableEq ε] [DecidableEq α] : DecidableEq (Except ε α) :=
  fun a b =>
    match a, b with
    | .ok x, .ok y =>
      if h : x = y then isTrue (by rw [h]) else isFalse (by simp [h])
    | .error x, .error y =>
      if h : x = y then isTrue (by rw [h]) else isFalse (by simp [h])
    | .ok _, .error _ => isFalse (by simp)
    | .error _, .ok _ => isFalse (by simp)

/-! ## Shared definitions for the theorem statements -/

/-- The stop invariants asserted by the spec for `adjust_stops` output:
strict positivity, direction-sign invariants, and the reward:risk floor
`|TP - entry| ≥ 1.3 * |entry - SL|`. -/
def stopInvariants (dir : Direction) (entry sl tp : ℚ) : Prop :=
  0 < sl ∧ 0 < tp ∧
  (dir = .buy → sl < entry ∧ entry < tp) ∧
  (dir = .sell → tp < entry ∧ entry < sl) ∧
  1.3 * |entry - sl| ≤ |tp - entry|

instance (dir : Direction) (entry sl tp : ℚ) :
    Decidable (stopInvariants dir entry sl tp) := by
  unfold stopInvariants; infer_instance

/-- The position has moved at least one initial-risk unit (+1R) in its
favor. -/
def reachedOneR (dir : Direction) (entry stopLoss current : ℚ) : Prop :=
  match dir with
  | .buy => entry + |entry - stopLoss| ≤ current
  | .sell => current ≤ entry - |entry - stopLoss|

/-- Recognizer for `close_partial` broker calls. -/
def isPartClose : BrokerAction → Bool
  | .partClose _ _ => true
  | _ => false

/-- A plain EURUSD symbol info with every numeric key absent (each read
falls back to the code's documented default). -/
def infoPlain : SymbolInfo := { symbol := "EURUSD" }

/-- A EURUSD symbol info whose price precision is 0 digits (as for many
index CFDs); all other keys absent. -/
def infoDigits0 : SymbolInfo := { symbol := "EURUSD", digits := some 0 }

/-- A symbol info whose minimum volume (0.05) is not a multiple of its
volume step (0.02). -/
def infoMinOffStep : SymbolInfo := { volume_min := some (1/20), volume_step := some (1/50) }

/-- The stop invariants that `adjust_stops` actually guarantees for its
pre-rounding values: sign invariants and positivity unconditionally, the
1.3 reward:risk floor whenever the non-positive-TP fallback did not
fire. -/
def adjustCoreInvariants (dir : Direction) (entry sl tp : ℚ) (info : SymbolInfo)
    (atr : Option ℚ) : Prop :=
  0 < (adjustStopsCore dir entry sl tp info atr).sl ∧
  0 < (adjustStopsCore dir entry sl tp info atr).tp ∧
  (dir = .buy → (adjustStopsCore dir entry sl tp info atr).sl < entry ∧
    entry < (adjustStopsCore dir entry sl tp info atr).tp) ∧
  (dir = .sell → (adjustStopsCore dir entry sl tp info atr).tp < entry ∧
    entry < (adjustStopsCore dir entry sl tp info atr).sl) ∧
  ((adjustStopsCore dir entry sl tp info atr).tpFallback = false →
    1.3 * |entry - (adjustStopsCore dir entry sl tp info atr).sl| ≤
      |(adjustStopsCore dir entry sl tp info atr).tp - entry|)

/-- The volume guarantees that `calculate_position_size_fixed_usd`
actually provides when the volume step is non-zero. -/
def fixedUsdVolumeOk (symbol : String) (entry sl : ℚ) (info : SymbolInfo)
    (fixed : ℚ) : Prop :=
  coercedMinVol info ≤ (calculatePositionSizeFixedUsd symbol entry sl info fixed).volume ∧
  0 < (calculatePositionSizeFixedUsd symbol entry sl info fixed).volume ∧
  (coercedMinVol info ≤ readMaxVol info →
    (calculatePositionSizeFixedUsd symbol entry sl info fixed).volume ≤ readMaxVol info) ∧
  (isStepMultiple (coercedMinVol info) (readStepVol info) →
    isStepMultiple (readMaxVol info) (readStepVol info) →
    isStepMultiple ((calculatePositionSizeFixedUsd symbol entry sl info fixed).volume)
      (readStepVol info))

/-- Length/padding behavior the indicator pair actually has:
`calculate_ema` raises on short input and otherwise preserves the length
with a NaN front pad; `atr` never raises but returns
`period + (n - 1)` values. -/
def indicatorLengthFacts (prices high low close : List ℚ) (period : ℕ) : Prop :=
  (period ≤ prices.length →
    ∃ l, calculateEma prices period = .ok l ∧ l.length = prices.length ∧
      l.take (period - 1) = List.replicate (period - 1) none) ∧
  (prices.length < period → calculateEma prices period = .error ()) ∧
  (high.length = close.length → low.length = close.length →
    (TechnicalIndicators.atr high low close period).length = period + (close.length - 1))

/-- One lifecycle call at ≥ +1R with no recorded half-close and the
broker allowing it issues exactly one half close and exactly one
break-even stop move. -/
def oneSplitOneBreakEven (positionId : ℤ) (entry stopLoss takeProfit current : ℚ)
    (dir : Direction) (volume : ℚ) (closes : List ℚ) (broker : BrokerView) : Prop :=
  (managePartAndTrailing positionId entry stopLoss takeProfit current dir volume
      closes broker 20).filter isPartClose = [.partClose positionId (volume / 2)] ∧
  (managePartAndTrailing positionId entry stopLoss takeProfit current dir volume
      closes broker 20).filter (fun a => a == .setStop positionId entry) =
    [.setStop positionId entry]

/-- The tighten-only guarantees of a successful structural-trailing
computation, plus its characterization as the most conservative of the
candidate levels (clamped at the entry). -/
def trailingTightens (closes : List ℚ) (entry current stopLoss : ℚ)
    (dir : Direction) (period : ℕ) (ts : ℚ) : Prop :=
  ∃ ema, calculateEma closes period = .ok ema ∧
    match dir with
    | .buy => stopLoss < ts ∧ entry ≤ ts ∧
        (∀ c ∈ buyTrailCandidates closes entry current stopLoss ema, c ≤ ts) ∧
        (ts ∈ buyTrailCandidates closes entry current stopLoss ema ∨ ts = entry)
    | .sell => ts < stopLoss ∧ ts ≤ entry ∧
        (∀ c ∈ sellTrailCandidates closes entry current stopLoss ema, ts ≤ c) ∧
        (ts ∈ sellTrailCandidates closes entry current stopLoss ema ∨ ts = entry)

/-! ## Helper lemmas -/

lemma minSlDistance_pos (info : SymbolInfo) (atr : Option ℚ) :
    0 < minSlDistance info atr := by
  unfold minSlDistance
  dsimp only
  have hp : (0:ℚ) < (if (info.point.getD 0.0001) ≤ 0 then
      (if containsToken info.symbol "JPY" then (0.01 : ℚ) else 0.0001)
      else (info.point.getD 0.0001)) := by
    split_ifs with h1 h2
    · norm_num
    · norm_num
    · exact lt_of_not_le h1
  set point := (if (info.point.getD 0.0001) ≤ 0 then
      (if containsToken info.symbol "JPY" then (0.01 : ℚ) else 0.0001)
      else (info.point.getD 0.0001)) with hpdef
  set base := max (if (info.stops_level.getD 0) > 0 then
      (info.stops_level.getD 0) * point else 10 * point) (5 * point) with hbdef
  have hbase : 0 < base := by
    rw [hbdef]; exact lt_max_of_lt_right (by linarith)
  rcases atr with _ | a
  · dsimp only
    exact mul_pos hbase (by norm_num)
  · dsimp only
    split_ifs with ha
    · exact lt_max_of_lt_left (mul_pos hbase (by norm_num))
    · exact mul_pos hbase (by norm_num)

lemma validateSl_buy (entry sl minD : ℚ) :
    minD ≤ entry - validateSl .buy entry sl minD := by
  unfold validateSl
  dsimp only
  split_ifs <;> linarith

lemma validateTp_buy (entry tp minD : ℚ) :
    minD ≤ validateTp .buy entry tp minD - entry := by
  unfold validateTp
  dsimp only
  split_ifs <;> linarith

lemma validateSl_sell (entry sl minD : ℚ) :
    minD ≤ validateSl .sell entry sl minD - entry := by
  unfold validateSl
  dsimp only
  split_ifs <;> linarith

lemma validateTp_sell (entry tp minD : ℚ) :
    minD ≤ entry - validateTp .sell entry tp minD := by
  unfold validateTp
  dsimp only
  split_ifs <;> linarith

lemma repairStops_buy (entry sl1 tp1 minD : ℚ) (he : 0 < entry) (hd : 0 < minD) :
    0 < (repairStops .buy entry sl1 tp1 minD).sl ∧
    (repairStops .buy entry sl1 tp1 minD).sl < entry ∧
    entry < (repairStops .buy entry sl1 tp1 minD).tp ∧
    (repairStops .buy entry sl1 tp1 minD).tpFallback = false ∧
    1.3 * (entry - (repairStops .buy entry sl1 tp1 minD).sl) ≤
      (repairStops .buy entry sl1 tp1 minD).tp - entry := by
  have hsl := validateSl_buy entry sl1 minD
  have htp := validateTp_buy entry tp1 minD
  unfold repairStops
  dsimp only
  rw [abs_of_nonneg (show (0:ℚ) ≤ entry - validateSl .buy entry sl1 minD by linarith),
      abs_of_nonneg (show (0:ℚ) ≤ validateTp .buy entry tp1 minD - entry by linarith)]
  set sl2 := validateSl .buy entry sl1 minD with hsl2
  set tp2 := validateTp .buy entry tp1 minD with htp2
  simp only [decide_eq_false_iff_not, not_le]
  split_ifs with h1 h2 h3 <;>
    refine ⟨by linarith, by linarith, by linarith, by linarith, by linarith⟩

lemma repairStops_sell (entry sl1 tp1 minD : ℚ) (he : 0 < entry) (hd : 0 < minD) :
    entry < (repairStops .sell entry sl1 tp1 minD).sl ∧
    (repairStops .sell entry sl1 tp1 minD).tp < entry ∧
    0 < (repairStops .sell entry sl1 tp1 minD).tp ∧
    ((repairStops .sell entry sl1 tp1 minD).tpFallback = false →
      1.3 * ((repairStops .sell entry sl1 tp1 minD).sl - entry) ≤
        entry - (repairStops .sell entry sl1 tp1 minD).tp) := by
  have hsl := validateSl_sell entry sl1 minD
  have htp := validateTp_sell entry tp1 minD
  unfold repairStops
  dsimp only
  rw [abs_of_nonpos (show entry - validateSl .sell entry sl1 minD ≤ 0 by linarith),
      abs_of_nonpos (show validateTp .sell entry tp1 minD - entry ≤ 0 by linarith)]
  set sl2 := validateSl .sell entry sl1 minD with hsl2
  set tp2 := validateTp .sell entry tp1 minD with htp2
  simp only [decide_eq_false_iff_not, not_le]
  split_ifs with h1 h2 h3 <;>
    refine ⟨by linarith, by linarith, by linarith, fun hh => by linarith⟩

lemma le_maxQ_self (xs : List ℚ) (x : ℚ) : x ≤ maxQ x xs := by
  induction xs generalizing x with
  | nil => exact le_refl x
  | cons y ys ih => exact le_trans (le_max_left x y) (ih (max x y))

lemma le_maxQ_of_mem {y : ℚ} (xs : List ℚ) (x : ℚ) (hmem : y ∈ xs) :
    y ≤ maxQ x xs := by
  induction xs generalizing x with
  | nil => cases hmem
  | cons z zs ih =>
    rcases List.mem_cons.mp hmem with h | h
    · subst h
      exact le_trans (le_max_right x y) (le_maxQ_self zs (max x y))
    · exact ih (max x z) h

lemma maxQ_mem (xs : List ℚ) (x : ℚ) : maxQ x xs ∈ x :: xs := by
  induction xs generalizing x with
  | nil => simp [maxQ]
  | cons y ys ih =>
    have h := ih (max x y)
    have hq : maxQ x (y :: ys) = maxQ (max x y) ys := rfl
    rw [hq]
    rcases List.mem_cons.mp h with h1 | h1
    · rw [h1]
      rcases max_choice x y with h2 | h2 <;> rw [h2]
      · exact List.mem_cons_self _ _
      · exact List.mem_cons_of_mem _ (List.mem_cons_self _ _)
    · exact List.mem_cons_of_mem _ (List.mem_cons_of_mem _ h1)

lemma ge_minQ_self (xs : List ℚ) (x : ℚ) : minQ x xs ≤ x := by
  induction xs generalizing x with
  | nil => exact le_refl x
  | cons y ys ih => exact le_trans (ih (min x y)) (min_le_left x y)

lemma ge_minQ_of_mem {y : ℚ} (xs : List ℚ) (x : ℚ) (hmem : y ∈ xs) :
    minQ x xs ≤ y := by
  induction xs generalizing x with
  | nil => cases hmem
  | cons z zs ih =>
    rcases List.mem_cons.mp hmem with h | h
    · subst h
      exact le_trans (ge_minQ_self zs (min x y)) (min_le_right x y)
    · exact ih (min x z) h

lemma minQ_mem (xs : List ℚ) (x : ℚ) : minQ x xs ∈ x :: xs := by
  induction xs generalizing x with
  | nil => simp [minQ]
  | cons y ys ih =>
    have h := ih (min x y)
    have hq : minQ x (y :: ys) = minQ (min x y) ys := rfl
    rw [hq]
    rcases List.mem_cons.mp h with h1 | h1
    · rw [h1]
      rcases min_choice x y with h2 | h2 <;> rw [h2]
      · exact List.mem_cons_self _ _
      · exact List.mem_cons_of_mem _ (List.mem_cons_self _ _)
    · exact List.mem_cons_of_mem _ (List.mem_cons_of_mem _ h1)

lemma le_pyMax_of_mem {y : ℚ} {l : List ℚ} (d : ℚ) (hmem : y ∈ l) :
    y ≤ pyMax l d := by
  cases l with
  | nil => cases hmem
  | cons x xs =>
    rcases List.mem_cons.mp hmem with h | h
    · subst h; exact le_maxQ_self xs y
    · exact le_maxQ_of_mem xs x h

lemma pyMax_mem {l : List ℚ} (d : ℚ) (hne : l ≠ []) : pyMax l d ∈ l := by
  cases l with
  | nil => exact absurd rfl hne
  | cons x xs => exact maxQ_mem xs x

lemma ge_pyMin_of_mem {y : ℚ} {l : List ℚ} (d : ℚ) (hmem : y ∈ l) :
    pyMin l d ≤ y := by
  cases l with
  | nil => cases hmem
  | cons x xs =>
    rcases List.mem_cons.mp hmem with h | h
    · subst h; exact ge_minQ_self xs y
    · exact ge_minQ_of_mem xs x h

lemma pyMin_mem {l : List ℚ} (d : ℚ) (hne : l ≠ []) : pyMin l d ∈ l := by
  cases l with
  | nil => exact absurd rfl hne
  | cons x xs => exact minQ_mem xs x

lemma offset_mem_trailCandidates (fractal emaLast : Option ℚ) (offset : ℚ) :
    offset ∈ trailCandidates fractal emaLast offset := by
  cases fractal <;> cases emaLast <;> simp [trailCandidates]

lemma offset_mem_buyTrailCandidates (closes : List ℚ) (entry current stopLoss : ℚ)
    (ema : List (Option ℚ)) :
    entry + |entry - stopLoss| / 10 ∈ buyTrailCandidates closes entry current stopLoss ema := by
  unfold buyTrailCandidates
  exact offset_mem_trailCandidates _ _ _

lemma offset_mem_sellTrailCandidates (closes : List ℚ) (entry current stopLoss : ℚ)
    (ema : List (Option ℚ)) :
    entry - |entry - stopLoss| / 10 ∈ sellTrailCandidates closes entry current stopLoss ema := by
  unfold sellTrailCandidates
  exact offset_mem_trailCandidates _ _ _

/-- Characterization of a successful BUY trailing computation: the
returned level strictly tightens the stop, never drops below entry, is
an upper bound of all three candidates and is either one of them or the
entry clamp. -/
lemma trailing_buy_spec (closes : List ℚ) (entry current stopLoss : ℚ) (p : ℕ) (ts : ℚ)
    (h : calculateTrailingStopStructural closes entry current stopLoss .buy p = .ok (some ts)) :
    ∃ ema, calculateEma closes p = .ok ema ∧
      stopLoss < ts ∧ entry ≤ ts ∧ entry + |entry - stopLoss| / 10 ≤ ts ∧
      (∀ c ∈ buyTrailCandidates closes entry current stopLoss ema, c ≤ ts) ∧
      (ts ∈ buyTrailCandidates closes entry current stopLoss ema ∨ ts = entry) := by
  unfold calculateTrailingStopStructural at h
  cases hE : calculateEma closes p with
  | error e => rw [hE] at h; cases h
  | ok ema =>
    rw [hE] at h
    dsimp only at h
    split_ifs at h with h1 h2
    · cases h
    · rw [Except.ok.injEq, Option.some.injEq] at h
      subst h
      refine ⟨ema, rfl, h2, le_max_right _ _, ?_, ?_, ?_⟩
      · exact le_trans (le_pyMax_of_mem _ (offset_mem_buyTrailCandidates _ _ _ _ _))
          (le_max_left _ _)
      · intro c hc
        exact le_trans (le_pyMax_of_mem _ hc) (le_max_left _ _)
      · rcases max_choice (pyMax (buyTrailCandidates closes entry current stopLoss ema)
            (entry + |entry - stopLoss| / 10)) entry with hmx | hmx
        · rw [hmx]
          left
          apply pyMax_mem
          intro hnil
          have := offset_mem_buyTrailCandidates closes entry current stopLoss ema
          rw [hnil] at this
          cases this
        · right; rw [hmx]
    · cases h

/-- Characterization of a successful SELL trailing computation. -/
lemma trailing_sell_spec (closes : List ℚ) (entry current stopLoss : ℚ) (p : ℕ) (ts : ℚ)
    (h : calculateTrailingStopStructural closes entry current stopLoss .sell p = .ok (some ts)) :
    ∃ ema, calculateEma closes p = .ok ema ∧
      ts < stopLoss ∧ ts ≤ entry ∧ ts ≤ entry - |entry - stopLoss| / 10 ∧
      (∀ c ∈ sellTrailCandidates closes entry current stopLoss ema, ts ≤ c) ∧
      (ts ∈ sellTrailCandidates closes entry current stopLoss ema ∨ ts = entry) := by
  unfold calculateTrailingStopStructural at h
  cases hE : calculateEma closes p with
  | error e => rw [hE] at h; cases h
  | ok ema =>
    rw [hE] at h
    dsimp only at h
    split_ifs at h with h1 h2
    · cases h
    · rw [Except.ok.injEq, Option.some.injEq] at h
      subst h
      refine ⟨ema, rfl, h2, min_le_right _ _, ?_, ?_, ?_⟩
      · exact le_trans (min_le_left _ _)
          (ge_pyMin_of_mem _ (offset_mem_sellTrailCandidates _ _ _ _ _))
      · intro c hc
        exact le_trans (min_le_left _ _) (ge_pyMin_of_mem _ hc)
      · rcases min_choice (pyMin (sellTrailCandidates closes entry current stopLoss ema)
            (entry - |entry - stopLoss| / 10)) entry with hmn | hmn
        · rw [hmn]
          left
          apply pyMin_mem
          intro hnil
          have := offset_mem_sellTrailCandidates closes entry current stopLoss ema
          rw [hnil] at this
          cases this
        · right; rw [hmn]
    · cases h

lemma clampToStep_ge_min (m M s x : ℚ) : m ≤ clampToStep m M s x :=
  le_max_left _ _

lemma clampToStep_le_max (m M s x : ℚ) (h : m ≤ M) : clampToStep m M s x ≤ M :=
  max_le h (min_le_left _ _)

lemma clampToStep_multiple (m M s x : ℚ) (hm : isStepMultiple m s)
    (hM : isStepMultiple M s) : isStepMultiple (clampToStep m M s x) s := by
  unfold clampToStep
  rcases max_choice m (min M ((roundHalfEven (x / s) : ℚ) * s)) with h | h <;> rw [h]
  · exact hm
  · rcases min_choice M ((roundHalfEven (x / s) : ℚ) * s) with h2 | h2 <;> rw [h2]
    · exact hM
    · exact ⟨roundHalfEven (x / s), rfl⟩

lemma emaFrom_length (k : ℚ) (a : ℚ) (l : List ℚ) :
    (emaFrom k a l).length = l.length := by
  induction l generalizing a with
  | nil => rfl
  | cons p ps ih => simp [emaFrom, ih]

lemma rollingMean_length (xs : List ℚ) (p : ℕ) :
    (rollingMean xs p).length = xs.length := by
  simp [rollingMean]

lemma coercedMinVol_pos (info : SymbolInfo) : 0 < coercedMinVol info := by
  unfold coercedMinVol
  dsimp only
  split_ifs with h
  · norm_num
  · exact lt_of_not_le h

lemma intCast_mul_isStepMultiple (k : ℤ) (s : ℚ) :
    isStepMultiple ((k : ℚ) * s) s :=
  ⟨k, rfl⟩

lemma filter_ite_single (p : BrokerAction → Bool) {c : Prop} [Decidable c]
    (a : BrokerAction) (hpa : p a = false) :
    (if c then [a] else []).filter p = [] := by
  split_ifs <;> simp [hpa]

/-! ## Claim theorems -/

/-- C1 counterexample: for a SELL at the positive entry price 0.001 with
proposed SL = TP = 0 on a plain EURUSD spec and no ATR, `adjust_stops`
returns SL = 0.004 and TP = 0.00095, which violates the claimed
reward:risk floor `|TP - entry| ≥ 1.3 * |entry - SL|`
(0.00005 < 0.0039): the non-positive-TP fallback replaced the
ratio-widened TP by `0.95 * entry`. -/
theorem c1_claim_counterexample :
    ¬ stopInvariants .sell (1/1000)
        (adjustStops .sell (1/1000) 0 0 infoPlain none).1
        (adjustStops .sell (1/1000) 0 0 infoPlain none).2 := by
  have hres : adjustStops .sell (1/1000) 0 0 infoPlain none = (1/250, 19/20000) := by
    norm_num [adjustStops, adjustStopsCore, repairStops, atrProposal, minSlDistance,
      validateSl, validateTp, pyRound, roundHalfEven, Int.fract, abs_of_nonneg,
      abs_of_nonpos, infoPlain]
  rw [hres]
  norm_num [stopInvariants, abs_of_nonneg, abs_of_nonpos]

/-- C1 (amended): for every direction, positive entry price, symbol
spec, proposed stops and optional ATR, the stops computed by
`adjust_stops` *before the final decimal rounding* are strictly
positive and on the correct side of the entry; the floor
`|TP - entry| ≥ 1.3 * |entry - SL|` additionally holds whenever the
non-positive-TP fallback (reachable only for SELL entries close to
zero) did not fire. -/
theorem c1_adjust_stops_invariants (dir : Direction) (entry sl tp : ℚ)
    (info : SymbolInfo) (atr : Option ℚ) (he : 0 < entry) :
    adjustCoreInvariants dir entry sl tp info atr := by
  have hd := minSlDistance_pos info atr
  unfold adjustCoreInvariants adjustStopsCore
  dsimp only
  rw [if_neg (not_le.mpr he)]
  cases dir with
  | buy =>
    obtain ⟨h1, h2, h3, h4, h5⟩ := repairStops_buy entry
      (atrProposal .buy entry sl tp info atr (minSlDistance info atr)).1
      (atrProposal .buy entry sl tp info atr (minSlDistance info atr)).2
      (minSlDistance info atr) he hd
    refine ⟨h1, by linarith, fun _ => ⟨h2, h3⟩, ?_, fun _ => ?_⟩
    · intro hc; cases hc
    · rw [abs_of_nonneg (by linarith : (0:ℚ) ≤ entry -
            (repairStops .buy entry _ _ (minSlDistance info atr)).sl),
          abs_of_nonneg (by linarith : (0:ℚ) ≤
            (repairStops .buy entry _ _ (minSlDistance info atr)).tp - entry)]
      linarith
  | sell =>
    obtain ⟨h1, h2, h3, h4⟩ := repairStops_sell entry
      (atrProposal .sell entry sl tp info atr (minSlDistance info atr)).1
      (atrProposal .sell entry sl tp info atr (minSlDistance info atr)).2
      (minSlDistance info atr) he hd
    refine ⟨by linarith, h3, ?_, fun _ => ⟨h2, h1⟩, fun hfb => ?_⟩
    · intro hc; cases hc
    · have h5 := h4 hfb
      rw [abs_of_nonpos (by linarith : entry -
            (repairStops .sell entry _ _ (minSlDistance info atr)).sl ≤ 0),
          abs_of_nonpos (by linarith :
            (repairStops .sell entry _ _ (minSlDistance info atr)).tp - entry ≤ 0)]
      linarith

/-- C1 witness: the amended invariants instantiated at a BUY with entry
1, proposed SL = TP = 0 on the plain EURUSD spec. -/
theorem c1_adjust_stops_invariants_witness :
    (0 : ℚ) < 1 ∧ adjustCoreInvariants .buy 1 0 0 infoPlain none :=
  ⟨by norm_num, c1_adjust_stops_invariants .buy 1 0 0 infoPlain none (by norm_num)⟩

/-- C7 counterexample: with free margin 2000, balance 1000 and a
configured 2% risk, the code computes `min(0.02, 0.01) * 2000 = 20`,
not the claimed `min(0.02, 0.01) * min(2000, 1000) = 10`: the balance
is never taken as the minimum against a larger valid free margin. -/
theorem c7_claim_counterexample :
    percentMarginRiskAmount (1/50) (some 2000) 1000 = 20 ∧
    min (1/50 : ℚ) 0.01 * min (2000 : ℚ) 1000 = 10 ∧ (20 : ℚ) ≠ 10 := by
  refine ⟨by norm_num [percentMarginRiskAmount], by norm_num, by norm_num⟩

/-- C7 (amended): in percent-of-margin mode the risk amount equals
`min(configured pct, 0.01) * free_margin` — the account balance is
substituted only when the free margin is missing or non-positive — and
the 1% hard cap is never bypassed: the risk amount never exceeds 1% of
the margin figure used. -/
theorem c7_risk_amount_hard_cap (pct fm bal : ℚ) (hfm : 0 < fm) :
    percentMarginRiskAmount pct (some fm) bal = fm * min pct 0.01 ∧
    percentMarginRiskAmount pct none bal = bal * min pct 0.01 ∧
    percentMarginRiskAmount pct (some fm) bal ≤ 0.01 * fm := by
  unfold percentMarginRiskAmount
  dsimp only
  rw [if_neg (not_le.mpr hfm)]
  refine ⟨rfl, rfl, ?_⟩
  have h1 : min pct 0.01 ≤ 0.01 := min_le_right _ _
  nlinarith

/-- C7 witness: the amended statement at pct = 2%, free margin 2000,
balance 1000. -/
theorem c7_risk_amount_hard_cap_witness :
    (0 : ℚ) < 2000 ∧
    (percentMarginRiskAmount (1/50) (some 2000) 1000 = 2000 * min (1/50) 0.01 ∧
     percentMarginRiskAmount (1/50) none 1000 = 1000 * min (1/50) 0.01 ∧
     percentMarginRiskAmount (1/50) (some 2000) 1000 ≤ 0.01 * 2000) :=
  ⟨by norm_num, c7_risk_amount_hard_cap (1/50) 2000 1000 (by norm_num)⟩

/-- C8 counterexample: with a 0-digit symbol spec and no ATR,
`adjust_stops` for a BUY at 1.2 with proposed SL = TP = 0 returns
(1.0, 1.0); feeding that output back in returns (1.0, 2.0) — the second
call repairs the now entry-crossing TP and widens it by the 1.5 ratio,
so the call is not idempotent. -/
theorem c8_claim_counterexample :
    adjustStops .buy (6/5)
        (adjustStops .buy (6/5) 0 0 infoDigits0 none).1
        (adjustStops .buy (6/5) 0 0 infoDigits0 none).2 infoDigits0 none ≠
      adjustStops .buy (6/5) 0 0 infoDigits0 none := by
  have h1 : adjustStops .buy (6/5) 0 0 infoDigits0 none = (1, 1) := by
    norm_num [adjustStops, adjustStopsCore, repairStops, atrProposal, minSlDistance,
      validateSl, validateTp, pyRound, roundHalfEven, Int.fract, abs_of_nonneg,
      abs_of_nonpos, infoDigits0]
  rw [h1]
  have h2 : adjustStops .buy (6/5) 1 1 infoDigits0 none = (1, 2) := by
    norm_num [adjustStops, adjustStopsCore, repairStops, atrProposal, minSlDistance,
      validateSl, validateTp, pyRound, roundHalfEven, Int.fract, abs_of_nonneg,
      abs_of_nonpos, infoDigits0]
  rw [h2]
  norm_num

/-- C8 (amended): whenever a positive ATR is supplied, `adjust_stops`
recomputes both stops from the entry and the ATR, ignoring the proposed
values entirely; hence calling it again on its own output (same
direction, entry, spec and ATR) returns exactly the same stops. -/
theorem c8_adjust_stops_idempotent_with_atr (dir : Direction) (entry sl tp : ℚ)
    (info : SymbolInfo) (a : ℚ) (ha : 0 < a) :
    adjustStops dir entry
        (adjustStops dir entry sl tp info (some a)).1
        (adjustStops dir entry sl tp info (some a)).2 info (some a) =
      adjustStops dir entry sl tp info (some a) := by
  have key : ∀ s t : ℚ, atrProposal dir (if entry ≤ 0 then 1 else entry) s t info
      (some a) (minSlDistance info (some a)) =
      atrProposal dir (if entry ≤ 0 then 1 else entry) 0 0 info
      (some a) (minSlDistance info (some a)) := by
    intro s t
    unfold atrProposal
    dsimp only
    rw [if_pos ha, if_pos ha]
  unfold adjustStops adjustStopsCore
  dsimp only
  rw [key, key sl tp]

/-- C8 witness: the amended idempotence at a BUY, entry 1, ATR 0.01 on
the plain EURUSD spec. -/
theorem c8_adjust_stops_idempotent_with_atr_witness :
    (0 : ℚ) < 1/100 ∧
    adjustStops .buy 1
        (adjustStops .buy 1 0 0 infoPlain (some (1/100))).1
        (adjustStops .buy 1 0 0 infoPlain (some (1/100))).2 infoPlain (some (1/100)) =
      adjustStops .buy 1 0 0 infoPlain (some (1/100)) :=
  ⟨by norm_num, c8_adjust_stops_idempotent_with_atr .buy 1 0 0 infoPlain (1/100) (by norm_num)⟩

/-- C9 counterexample: on a strictly rising two-bar series the ADX
derived from smoothed +DM/−DM over smoothed true range (reference
definition `adxSpecLast`, modelled from the spec) is 100 — all
directional movement is upward — while the shipped
`TechnicalIndicators.adx` returns the constant 25.0 for every element,
so the returned values are not the directional-movement ADX. -/
theorem c9_claim_counterexample :
    TechnicalIndicators.adx [1, 2] [0, 1] [1, 2] 1 = [25, 25] ∧
    adxSpecLast [1, 2] [0, 1] [1, 2] 1 = 100 ∧ (100 : ℚ) ≠ 25 := by
  refine ⟨rfl, ?_, by norm_num⟩
  norm_num [adxSpecLast, dmPlusStep, dmMinusStep, trueRangeStep, wilderSmooth,
    List.range_succ]

/-- C9 (amended): `TechnicalIndicators.adx` ignores its price inputs and
the period and returns a constant placeholder array of 25.0 with one
entry per close. -/
theorem c9_adx_constant (high low close : List ℚ) (period : ℕ) :
    TechnicalIndicators.adx high low close period = List.replicate close.length 25 :=
  rfl

/-- C10: the cooldown logic of `register_trade_result`/`can_trade`
(lines 131-149) satisfies the claim when the cooldown attributes are
initialized as in the `__init__` of lines 117-130: two consecutive LOSS
results disable trading, and a subsequent WIN or BE resets the counter
to zero and re-enables it.  But the duplicated `__init__` of lines
836-847 — the one Python actually uses — never creates those
attributes, so on a freshly constructed `RiskManager` the very first
`register_trade_result('LOSS')` raises `AttributeError` (first
conjunct). -/
theorem c10_cooldown_scenario :
    registerTradeResult initCooldownEffective "LOSS" = .error () ∧
    (registerTradeResult initCooldownIntended "LOSS" >>= fun s =>
      registerTradeResult s "LOSS" >>= fun s => canTrade s) = .ok false ∧
    (registerTradeResult initCooldownIntended "LOSS" >>= fun s =>
      registerTradeResult s "LOSS" >>= fun s =>
        registerTradeResult s "WIN") = .ok ⟨some 0, some false, some 2⟩ ∧
    (registerTradeResult initCooldownIntended "LOSS" >>= fun s =>
      registerTradeResult s "LOSS" >>= fun s =>
        registerTradeResult s "WIN" >>= fun s => canTrade s) = .ok true ∧
    (registerTradeResult initCooldownIntended "LOSS" >>= fun s =>
      registerTradeResult s "LOSS" >>= fun s =>
        registerTradeResult s "BE" >>= fun s => canTrade s) = .ok true := by
  decide

set_option maxRecDepth 8000 in
/-- C2 counterexample: with minimum volume 0.05 and volume step 0.02
(and a fixed risk so small that the raw volume rounds to 0), the
returned volume is the raw minimum 0.05, which is not an integer
multiple of the 0.02 step — the claimed "multiple of the volume step"
is violated. -/
theorem c2_claim_counterexample :
    (calculatePositionSizeFixedUsd "" (11/10) (21/20) infoMinOffStep (1/100)).volume
      = 1/20 ∧
    ¬ isStepMultiple (1/20) (readStepVol infoMinOffStep) := by
  have h1 : containsToken "" "JPY" = false := by decide
  have h2 : containsAny "" ["XAU", "XAG", "GOLD", "SILVER"] = false := by decide
  have h3 : containsAny "" ["XAU", "XAG"] = false := by decide
  constructor
  · unfold calculatePositionSizeFixedUsd
    dsimp only
    simp only [h1, h2, h3, Bool.false_eq_true, if_false]
    norm_num [coercedMinVol, readMaxVol, readStepVol, infoMinOffStep, abs_of_nonneg]
    norm_num [clampToStep, roundHalfEven, Int.fract]
  · rintro ⟨k, hk⟩
    rw [show readStepVol infoMinOffStep = 1/50 from rfl] at hk
    have h5 : ((2 * k : ℤ) : ℚ) = ((5 : ℤ) : ℚ) := by push_cast; linarith
    have h6 : (2 * k : ℤ) = 5 := Int.cast_injective h5
    omega

/-- C2 (amended): for every symbol spec with a non-zero volume step,
`calculate_position_size_fixed_usd` returns a strictly positive volume
that is at least the (coerced-positive) minimum volume; it is at most
the maximum volume provided the minimum does not exceed the maximum,
and it is a multiple of the volume step provided both clamp bounds are
themselves multiples of the step.  (With a zero step the Python
`except` fallback returns the spec's raw minimum volume instead, which
can be zero or negative.) -/
theorem c2_fixed_usd_volume (symbol : String) (entry sl fixed : ℚ)
    (info : SymbolInfo) (hstep : readStepVol info ≠ 0) :
    fixedUsdVolumeOk symbol entry sl info fixed := by
  have hm : 0 < coercedMinVol info := coercedMinVol_pos info
  unfold fixedUsdVolumeOk calculatePositionSizeFixedUsd
  rw [if_neg hstep]
  dsimp only
  rw [if_neg (not_lt.mpr (clampToStep_ge_min (coercedMinVol info) (readMaxVol info)
        (readStepVol info) _))]
  rw [if_neg (not_le.mpr (lt_of_lt_of_le hm (clampToStep_ge_min (coercedMinVol info)
        (readMaxVol info) (readStepVol info) _)))]
  refine ⟨clampToStep_ge_min _ _ _ _, lt_of_lt_of_le hm (clampToStep_ge_min _ _ _ _),
    fun h => clampToStep_le_max _ _ _ _ h, fun h1 h2 => clampToStep_multiple _ _ _ _ h1 h2⟩

/-- C2 witness: the amended guarantees instantiated on a plain EURUSD
spec (all defaults: min 0.01, max 100, step 0.01) with entry 1.1, stop
1.05 and 50 USD fixed risk. -/
theorem c2_fixed_usd_volume_witness :
    readStepVol infoPlain ≠ 0 ∧ fixedUsdVolumeOk "EURUSD" (11/10) (21/20) infoPlain 50 :=
  ⟨by norm_num [readStepVol, infoPlain],
   c2_fixed_usd_volume "EURUSD" (11/10) (21/20) 50 infoPlain
     (by norm_num [readStepVol, infoPlain])⟩

/-- C3 counterexample: `calculate_ema` raises `ValueError` on a series
shorter than the period instead of returning a front-padded same-length
array, and `TechnicalIndicators.atr` on a 5-bar series with the default
period 14 returns 18 values, not 5 — both halves of the claimed
"same length as the input, without raising" fail. -/
theorem c3_claim_counterexample :
    calculateEma [1, 2] 3 = .error () ∧
    (TechnicalIndicators.atr [1, 2, 3, 4, 5] [1, 2, 3, 4, 5] [1, 2, 3, 4, 5] 14).length ≠ 5 := by
  constructor
  · rfl
  · simp [TechnicalIndicators.atr, rollingMean, List.length_zipWith]

/-- C3 (amended): for every period ≥ 1, `calculate_ema` returns a
same-length array whose first `period-1` entries are NaN when the
series has at least `period` samples, and raises `ValueError` when it
is shorter; `TechnicalIndicators.atr` never raises but returns
`period + (n - 1)` values for `n`-bar inputs (front-padded with
`period` NaNs), not `n`. -/
theorem c3_indicator_lengths (prices high low close : List ℚ) (period : ℕ)
    (hp : 1 ≤ period) : indicatorLengthFacts prices high low close period := by
  unfold indicatorLengthFacts
  refine ⟨?_, ?_, ?_⟩
  · intro hlen
    unfold calculateEma
    rw [if_neg (not_lt.mpr hlen)]
    refine ⟨_, rfl, ?_, ?_⟩
    · simp [emaFrom_length]
      omega
    · exact List.take_left' (List.length_replicate _ _)
  · intro hlen
    unfold calculateEma
    rw [if_pos hlen]
  · intro hh hl
    unfold TechnicalIndicators.atr
    simp [rollingMean_length, List.length_zipWith, hh, hl]

/-- C3 witness: the amended statement instantiated at period 2 with a
3-sample EMA series and 2-bar ATR series. -/
theorem c3_indicator_lengths_witness :
    1 ≤ 2 ∧ indicatorLengthFacts [1, 2, 3] [1, 2] [1, 2] [1, 2] 2 :=
  ⟨by norm_num, c3_indicator_lengths [1, 2, 3] [1, 2] [1, 2] [1, 2] 2 (by norm_num)⟩

/-- C4 counterexample: `validate_exposure_and_margin` with proposed
exposure 105 against the limit 100 returns `True` ("near the limit,
allowed, MT5 decides") — it plainly accepts an order whose proposed
exposure exceeds the computed exposure limit, neither shrinking nor
rejecting. -/
theorem c4_claim_counterexample :
    (validateExposureAndMargin 105 1000 100).1 = true ∧ (100 : ℚ) < 105 := by
  constructor
  · norm_num [validateExposureAndMargin]
  · norm_num

/-- C4 (amended): the exposure guard's decisions in closed form.
`validate_exposure_and_margin` accepts exactly the proposals up to 110%
of the limit (so breaches of up to 10% are accepted with a warning
rather than shrunk or rejected), and `check_exposure_limit` accepts
exactly when either the proposed volume or the shrink-to-minimum-volume
retry fits the dynamic limit — it rejects whenever even the minimum
volume breaches. -/
theorem c4_exposure_guard_decisions :
    (∀ proposed fm maxE : ℚ,
      (validateExposureAndMargin proposed fm maxE).1 = decide (proposed ≤ maxE * 1.1)) ∧
    (∀ (symbol : String) (volume price : ℚ) (info : SymbolInfo) (cur bal : ℚ),
      checkExposureLimit symbol volume price info cur bal =
        (decide (cur + volume * info.contract_size.getD 100000 * price ≤
            dynamicExposureLimitInstance bal symbol) ||
         decide (cur + info.min_volume.getD 0.01 * info.contract_size.getD 100000 * price ≤
            dynamicExposureLimitInstance bal symbol))) := by
  constructor
  · intro proposed fm maxE
    unfold validateExposureAndMargin
    split_ifs with hA hB
    · exact (decide_eq_false (not_le.mpr hA)).symm
    · exact (decide_eq_true (not_lt.mp hA)).symm
    · exact (decide_eq_true (not_lt.mp hA)).symm
  · intro symbol volume price info cur bal
    unfold checkExposureLimit
    dsimp only
    split_ifs with hA hB
    · rw [decide_eq_false (not_le.mpr hA), decide_eq_false (not_le.mpr hB)]
      rfl
    · rw [decide_eq_true (not_lt.mp hB)]
      simp
    · rw [decide_eq_true (not_lt.mp hA)]
      simp

/-- C6: every non-None trailing level returned by
`calculate_trailing_stop_structural` tightens the stop in the trade's
favor and never loosens it — for a BUY it is strictly above the current
stop and at least the entry, for a SELL strictly below the stop and at
most the entry — and it is the most conservative of the candidate
levels (nearest swing fractal behind price, short EMA, minimum offset
from entry), clamped at the entry. -/
theorem c6_trailing_stop_tightens (closes : List ℚ) (entry current stopLoss : ℚ)
    (dir : Direction) (period : ℕ) (ts : ℚ)
    (h : calculateTrailingStopStructural closes entry current stopLoss dir period =
      .ok (some ts)) :
    trailingTightens closes entry current stopLoss dir period ts := by
  unfold trailingTightens
  cases dir with
  | buy =>
    obtain ⟨ema, hE, h1, h2, _h3, h4, h5⟩ :=
      trailing_buy_spec closes entry current stopLoss period ts h
    exact ⟨ema, hE, h1, h2, h4, h5⟩
  | sell =>
    obtain ⟨ema, hE, h1, h2, _h3, h4, h5⟩ :=
      trailing_sell_spec closes entry current stopLoss period ts h
    exact ⟨ema, hE, h1, h2, h4, h5⟩

/-- C6 witness: a BUY at entry 1 with stop 0.9 and price 3 over the
one-bar series [2] (period 1): the trailing computation returns the EMA
level 2, which is above both the stop and the entry. -/
theorem c6_trailing_stop_tightens_witness :
    calculateTrailingStopStructural [2] 1 3 (9/10) .buy 1 = .ok (some 2) ∧
    trailingTightens [2] 1 3 (9/10) .buy 1 2 := by
  have hEval : calculateTrailingStopStructural [2] 1 3 (9/10) .buy 1 = .ok (some 2) := by
    norm_num [calculateTrailingStopStructural, calculateEma, emaFrom, buyTrailCandidates,
      swingLowsBelow, TechnicalIndicators.findFractals, TechnicalIndicators.findNearestLevel,
      trailCandidates, lastEma, pyMax, maxQ, abs_of_nonneg, List.range_succ,
      List.filterMap_cons, List.filterMap_nil, List.foldl_cons, List.foldl_nil, max_def]
  exact ⟨hEval, c6_trailing_stop_tightens [2] 1 3 (9/10) .buy 1 2 hEval⟩

/-- C5: one call of `manage_partial_and_trailing` on a position that
has reached +1R in its favor (with a real initial stop distance), with
no recorded half-close and the broker allowing the partial close,
issues exactly one `close_partial` for half of the volume and exactly
one `modify_stop_loss` to the entry price (break-even) — never two
partial closes; a trailing stop move, when it also fires, targets a
level different from the entry. -/
theorem c5_one_half_close_and_breakeven (positionId : ℤ)
    (entry stopLoss takeProfit current volume : ℚ) (dir : Direction)
    (closes : List ℚ) (broker : BrokerView)
    (hrisk : entry ≠ stopLoss)
    (h1R : reachedOneR dir entry stopLoss current)
    (hnotdone : broker.alreadySplit = false)
    (hallowed : broker.splitAllowed = true) :
    oneSplitOneBreakEven positionId entry stopLoss takeProfit current dir volume
      closes broker := by
  have hr : 0 < |entry - stopLoss| := abs_pos.mpr (sub_ne_zero.mpr hrisk)
  unfold oneSplitOneBreakEven managePartAndTrailing splitPositionVolumes
  cases dir with
  | buy =>
    have h1R' : entry + |entry - stopLoss| ≤ current := h1R
    dsimp only
    rw [hnotdone, hallowed]
    simp only [Bool.not_false, Bool.true_and, Bool.and_true, decide_eq_true h1R',
      if_true]
    by_cases h15 : current ≥ entry + 1.5 * |entry - stopLoss|
    · rw [decide_eq_true h15]
      simp only [if_true]
      cases hc : calculateTrailingStopStructural closes entry current stopLoss .buy 20 with
      | error e =>
        simp [isPartClose]
      | ok o =>
        cases o with
        | none =>
          simp [isPartClose, List.filter_append,
            filter_ite_single isPartClose (BrokerAction.fullClose positionId) rfl,
            filter_ite_single (fun a => a == BrokerAction.setStop positionId entry)
              (BrokerAction.fullClose positionId) (by simp)]
        | some ts =>
          obtain ⟨ema, hE, hgt, hge, hoff, hub, hmem⟩ :=
            trailing_buy_spec closes entry current stopLoss 20 ts hc
          have hts : ts ≠ entry := by
            have : entry < ts := lt_of_lt_of_le (by linarith) hoff
            exact ne_of_gt this
          simp [isPartClose, List.filter_append, hts,
            filter_ite_single isPartClose (BrokerAction.fullClose positionId) rfl,
            filter_ite_single (fun a => a == BrokerAction.setStop positionId entry)
              (BrokerAction.fullClose positionId) (by simp)]
    · rw [decide_eq_false h15]
      simp [isPartClose, List.filter_append,
        filter_ite_single isPartClose (BrokerAction.fullClose positionId) rfl,
        filter_ite_single (fun a => a == BrokerAction.setStop positionId entry)
          (BrokerAction.fullClose positionId) (by simp)]
  | sell =>
    have h1R' : current ≤ entry - |entry - stopLoss| := h1R
    dsimp only
    rw [hnotdone, hallowed]
    simp only [Bool.not_false, Bool.true_and, Bool.and_true, decide_eq_true h1R',
      if_true]
    by_cases h15 : current ≤ entry - 1.5 * |entry - stopLoss|
    · rw [decide_eq_true h15]
      simp only [if_true]
      cases hc : calculateTrailingStopStructural closes entry current stopLoss .sell 20 with
      | error e =>
        simp [isPartClose]
      | ok o =>
        cases o with
        | none =>
          simp [isPartClose, List.filter_append,
            filter_ite_single isPartClose (BrokerAction.fullClose positionId) rfl,
            filter_ite_single (fun a => a == BrokerAction.setStop positionId entry)
              (BrokerAction.fullClose positionId) (by simp)]
        | some ts =>
          obtain ⟨ema, hE, hlt, hle, hoff, hub, hmem⟩ :=
            trailing_sell_spec closes entry current stopLoss 20 ts hc
          have hts : ts ≠ entry := by
            have : ts < entry := lt_of_le_of_lt hoff (by linarith)
            exact ne_of_lt this
          simp [isPartClose, List.filter_append, hts,
            filter_ite_single isPartClose (BrokerAction.fullClose positionId) rfl,
            filter_ite_single (fun a => a == BrokerAction.setStop positionId entry)
              (BrokerAction.fullClose positionId) (by simp)]
    · rw [decide_eq_false h15]
      simp [isPartClose, List.filter_append,
        filter_ite_single isPartClose (BrokerAction.fullClose positionId) rfl,
        filter_ite_single (fun a => a == BrokerAction.setStop positionId entry)
          (BrokerAction.fullClose positionId) (by simp)]

/-- C5 witness: a BUY position (entry 1, stop 0.9, target 2, volume 0.3)
with price exactly at +1R (1.1): the only actions issued are one
half-volume close (0.15) and one break-even stop move to 1. -/
theorem c5_one_half_close_and_breakeven_witness :
    (1 : ℚ) ≠ 9/10 ∧ reachedOneR .buy 1 (9/10) (11/10) ∧
    oneSplitOneBreakEven 7 1 (9/10) 2 (11/10) .buy (3/10) [] ⟨false, true, true⟩ :=
  ⟨by norm_num, by unfold reachedOneR; norm_num [abs_of_nonneg],
   c5_one_half_close_and_breakeven 7 1 (9/10) 2 (11/10) (3/10) .buy [] ⟨false, true, true⟩
     (by norm_num) (by unfold reachedOneR; norm_num [abs_of_nonneg]) rfl rfl⟩

end MrCashondo
